import Mathlib

/-!
Shallow embedding of the algorithmic core of the vietnam-journey-bot
repository: the structured-data extractor embedded in `askJourneyBot`
(src/services/gemini.ts, shown in src/routes/index.tsx), the normalizer in
`ChatBox.handleSend` (src/unnamed/part_001), and the boundary resolution and
render synchronization logic of `MapView` (src/components/Map/MapView.tsx).

JavaScript numbers are modelled as `JSNum` (an exact rational plus the
special values `NaN`, `Infinity`, `-Infinity`); rationals stand in for IEEE
doubles, so double rounding/overflow artifacts are not modelled.  Strings
are Lean `String`s, manipulated through their character lists (JS UTF-16
indices coincide with character indices on the ASCII inputs used here).
External collaborators (the Gemini transport, the Nominatim geocoding
service, the mapbox engine) are modelled as oracles / black-box action
values, exactly as the spec treats them.
-/

namespace VJB

/-- A JavaScript number: a finite (exact) rational or one of the IEEE
special values. -/
inductive JSNum where
  | fin (q : ℚ)
  | nan
  | inf
  | ninf
deriving DecidableEq, Repr

/-- A JavaScript value as it can appear in a `MapPoint` coordinate field:
a number, a string, or null/undefined (merged: all relevant code treats
them identically). -/
inductive JSVal where
  | num (n : JSNum)
  | str (s : String)
  | nullv
deriving DecidableEq, Repr

namespace JSNum

/-- JS `isNaN` on a number value. -/
def isNaNB : JSNum → Bool
  | nan => true
  | _ => false

/-- JS `isFinite` on a number value. -/
def isFiniteB : JSNum → Bool
  | fin _ => true
  | _ => false

/-- JS `Math.abs`. -/
def absJ : JSNum → JSNum
  | fin q => fin |q|
  | nan => nan
  | inf => inf
  | ninf => inf

/-- JS `>` on numbers (false whenever an operand is NaN). -/
def gtJ : JSNum → JSNum → Bool
  | fin a, fin b => decide (b < a)
  | fin _, inf => false
  | fin _, ninf => true
  | inf, fin _ => true
  | inf, ninf => true
  | ninf, _ => false
  | inf, inf => false
  | _, nan => false
  | nan, _ => false

/-- JS `<=` on numbers (false whenever an operand is NaN). -/
def leJ : JSNum → JSNum → Bool
  | fin a, fin b => decide (a ≤ b)
  | fin _, inf => true
  | fin _, ninf => false
  | inf, inf => true
  | inf, _ => false
  | ninf, nan => false
  | ninf, _ => true
  | _, nan => false
  | nan, _ => false

/-- JS `>=` on numbers. -/
def geJ (a b : JSNum) : Bool := leJ b a

/-- JS strict equality `===` on numbers (NaN is not equal to itself). -/
def eqJ : JSNum → JSNum → Bool
  | fin a, fin b => decide (a = b)
  | inf, inf => true
  | ninf, ninf => true
  | _, _ => false

/-- JS `x || 0`: NaN (and zero) collapse to 0, everything else is kept. -/
def orZero : JSNum → JSNum
  | fin q => fin q
  | nan => fin 0
  | inf => inf
  | ninf => ninf

end JSNum

/-! ### Character classes and low-level string helpers -/

/-- JS whitespace (`\s`, `trim`): the ASCII members of the class. -/
def isJsWs (c : Char) : Bool :=
  c = ' ' || c = '\t' || c = '\n' || c = '\r' || c = '\x0b' || c = '\x0c'

/-- ASCII decimal digit. -/
def isDigitC (c : Char) : Bool := '0' ≤ c && c ≤ '9'

/-- The character class kept by `replace(/[^0-9.-]+/g, "")`. -/
def isNumKeep (c : Char) : Bool := isDigitC c || c = '.' || c = '-'

/-- Strip leading and trailing JS whitespace from a character list
(`String.prototype.trim`). -/
def trimL (cs : List Char) : List Char :=
  ((cs.dropWhile isJsWs).reverse.dropWhile isJsWs).reverse

/-- Decimal value of a digit list (most significant first); 48 is the code
of the zero digit. -/
def digitsToNat (cs : List Char) : ℕ :=
  cs.foldl (fun acc c => acc * 10 + (c.toNat - 48)) 0

/-- Model of JS `parseFloat` restricted to the character sets it is applied
to in this code base (the argument has already been filtered to digits, dots
and minus signs, so the `Infinity` literal and exponents can never occur).
Parses the longest valid prefix `[+-]? digits [. digits]`; `none` models the
NaN result when no digits are found. -/
def parseFloatQ (cs0 : List Char) : Option ℚ :=
  let cs := cs0.dropWhile isJsWs
  let signNeg : Bool := match cs with
    | '-' :: _ => true
    | _ => false
  let cs1 : List Char := match cs with
    | '-' :: r => r
    | '+' :: r => r
    | r => r
  let d1 := cs1.takeWhile isDigitC
  let rest := cs1.dropWhile isDigitC
  let d2 : List Char := match rest with
    | '.' :: r => r.takeWhile isDigitC
    | _ => []
  if d1.isEmpty && d2.isEmpty then none
  else
    let mag : ℚ := (digitsToNat d1 : ℚ) + (digitsToNat d2 : ℚ) / ((10 : ℚ) ^ d2.length)
    some (if signNeg then -mag else mag)

/-- The common comma/dot pre-processing used by both `toNumber`
(ChatBox) and `parse` (MapView.normalizeLatLng): if the string contains
both a dot and a comma, strip all commas (thousands separators); otherwise
turn every comma into a dot; then drop every character that is not a digit,
a dot or a minus sign. -/
def numericClean (cs0 : List Char) : List Char :=
  let cs := trimL cs0
  let cs1 :=
    if cs.contains '.' && cs.contains ',' then cs.filter (fun c => c ≠ ',')
    else cs.map (fun c => if c = ',' then '.' else c)
  cs1.filter isNumKeep

/-! ### JSON values (results of `JSON.parse`) -/

/-- A parsed JSON value.  Numbers are exact rationals (JSON number literals
are decimal, so every parsed number has a finite decimal expansion). -/
inductive Json where
  | null
  | bool (b : Bool)
  | num (q : ℚ)
  | str (s : String)
  | arr (xs : List Json)
  | obj (fields : List (String × Json))
deriving Repr

/-- Object field lookup (`o["k"]`): `none` both for a missing key and for a
non-object receiver (JS yields `undefined` in both situations that occur
here). -/
def Json.getField : Json → String → Option Json
  | .obj fs, k => (fs.find? (fun f => f.1 = k)).map Prod.snd
  | _, _ => none

/-- Nullish field access `o["k"] ?? …`: a field whose value is JSON null is
treated like a missing field by the `??` chains in the source. -/
def Json.getFieldNN (j : Json) (k : String) : Option Json :=
  match j.getField k with
  | some .null => none
  | r => r

/-- JS `"k" in o` (key presence, regardless of the value). -/
def Json.hasKey (j : Json) (k : String) : Bool :=
  match j with
  | .obj fs => fs.any (fun f => f.1 = k)
  | _ => false

/-- JS truthiness of a parsed JSON value (`if (jsonData) …`). -/
def Json.truthy : Json → Bool
  | .null => false
  | .bool b => b
  | .num q => decide (q ≠ 0)
  | .str s => decide (s ≠ "")
  | .arr _ => true
  | .obj _ => true

/-- JS `typeof v === "object"` for a (non-null-checked) JSON value: arrays
are objects too. -/
def Json.isObjLike : Json → Bool
  | .arr _ => true
  | .obj _ => true
  | _ => false

/-! ### Decimal printing (JS number-to-string used in template literals) -/

/-- Decimal digit character. -/
def digitChar (d : ℕ) : Char := Char.ofNat (48 + d)

/-- Decimal digits of a natural number, most significant first; the fuel is
always instantiated so that `n < fuel`. -/
def natDigitsAux : ℕ → ℕ → List Char
  | 0, _ => []
  | fuel + 1, n =>
    if n < 10 then [digitChar n]
    else natDigitsAux fuel (n / 10) ++ [digitChar (n % 10)]

/-- Decimal digits of a natural number. -/
def natDigits (n : ℕ) : List Char := natDigitsAux (n + 1) n

/-- Decimal representation of an integer, as in JS template literals. -/
def intStr (i : ℤ) : List Char :=
  if i < 0 then '-' :: natDigits (-i).toNat else natDigits i.toNat

/-- Fractional digits of a rational in `[0,1)`, up to `fuel` digits
(terminating decimals — the only ones produced by JSON parsing — are printed
exactly; JS shortest-round-trip printing of pathological doubles is not
modelled). -/
def fracDigits : ℕ → ℚ → List Char
  | 0, _ => []
  | fuel + 1, q =>
    if q = 0 then []
    else
      let d := (q * 10).floor.toNat
      digitChar d :: fracDigits fuel (q * 10 - (q * 10).floor)

/-- JS number-to-string for a finite (rational) value. -/
def qToString (q : ℚ) : List Char :=
  if q.den = 1 then intStr q.num
  else
    let sign : List Char := if q < 0 then ['-'] else []
    let a := |q|
    sign ++ natDigits a.floor.toNat ++ '.' :: fracDigits 25 (a - a.floor)

/-- JS string coercion of a number value. -/
def JSNum.toStr : JSNum → List Char
  | .fin q => qToString q
  | .nan => "NaN".data
  | .inf => "Infinity".data
  | .ninf => "-Infinity".data

/-- Join character lists with commas (`Array.prototype.join(",")`). -/
def joinComma : List (List Char) → List Char
  | [] => []
  | [x] => x
  | x :: xs => x ++ ',' :: joinComma xs

/-- String of one array element inside `Array.prototype.join(",")`: null
elements become empty, nested arrays join recursively. -/
def jsonElemStr : Json → List Char
  | .null => []
  | .bool b => if b then "true".data else "false".data
  | .num q => qToString q
  | .str s => s.data
  | .obj _ => "[object Object]".data
  | .arr xs => joinComma (xs.attach.map (fun x => jsonElemStr x.1))
termination_by j => sizeOf j
decreasing_by
  have := List.sizeOf_lt_of_mem x.2
  simp only [Json.arr.sizeOf_spec]
  omega

/-- JS `String(v)` on a parsed JSON value (`Array.prototype.toString` joins
with commas, null elements become empty, plain objects print as
"[object Object]"). -/
def Json.toStr : Json → List Char
  | .null => "null".data
  | .bool b => if b then "true".data else "false".data
  | .num q => qToString q
  | .str s => s.data
  | .obj _ => "[object Object]".data
  | .arr xs => joinComma (xs.map jsonElemStr)

/-! ### `toNumber` — the coercion used by the normalizer
(src/unnamed/part_001, lines 50-60; identical copy in the second ChatBox
variant). -/

/-- `toNumber` from `ChatBox.handleSend`: numbers pass through, null /
undefined become 0, anything else is stringified, comma/dot-cleaned,
`parseFloat`ed, and a non-finite result becomes 0.  (JSON numbers are
finite, so the number branch never smuggles in an infinity here.) -/
def toNumber : Json → ℚ
  | .null => 0
  | .num q => q
  | v =>
    match parseFloatQ (numericClean v.toStr) with
    | some q => q
    | none => 0

/-! ### A strict JSON reader (model of `JSON.parse`)

Numbers become exact rationals (double rounding is not modelled); a
`\uXXXX` escape becomes the code point `XXXX` (surrogate pairs are not
recombined — the inputs of interest are ASCII). -/

/-- JSON token whitespace. -/
def isJsonWs (c : Char) : Bool := c = ' ' || c = '\t' || c = '\n' || c = '\r'

/-- Skip JSON whitespace. -/
def skipJWs (cs : List Char) : List Char := cs.dropWhile isJsonWs

/-- Hexadecimal digit value, by code point: digits are 48-57, the lower
case letters a-f are 97-102, the upper case letters A-F are 65-70. -/
def hexVal (c : Char) : Option ℕ :=
  let n := c.toNat
  if 48 ≤ n && n ≤ 57 then some (n - 48)
  else if 97 ≤ n && n ≤ 102 then some (n - 87)
  else if 65 ≤ n && n ≤ 70 then some (n - 55)
  else none

/-- Read the body of a JSON string after the opening quote; fails on an
invalid escape, an unescaped control character, or a missing close quote. -/
def readJString : List Char → Option (List Char × List Char)
  | [] => none
  | '"' :: rest => some ([], rest)
  | '\\' :: 'u' :: h1 :: h2 :: h3 :: h4 :: rest =>
    match hexVal h1, hexVal h2, hexVal h3, hexVal h4 with
    | some a, some b, some c, some d =>
      (readJString rest).map (fun p => (Char.ofNat ((a * 16 + b) * 256 + (c * 16 + d)) :: p.1, p.2))
    | _, _, _, _ => none
  | '\\' :: e :: rest =>
    let c? : Option Char :=
      match e with
      | '"' => some '"'
      | '\\' => some '\\'
      | '/' => some '/'
      | 'b' => some '\x08'
      | 'f' => some '\x0c'
      | 'n' => some '\n'
      | 'r' => some '\r'
      | 't' => some '\t'
      | _ => none
    match c? with
    | some c => (readJString rest).map (fun p => (c :: p.1, p.2))
    | none => none
  | c :: rest =>
    if c.toNat < 32 then none
    else (readJString rest).map (fun p => (c :: p.1, p.2))
termination_by cs => cs.length
decreasing_by all_goals simp_arith

/-- Strict JSON number: `-? (0 | [1-9][0-9]*) (. [0-9]+)? ([eE][+-]?[0-9]+)?`. -/
def readJNumber (cs : List Char) : Option (ℚ × List Char) :=
  let (neg, cs1) : Bool × List Char :=
    match cs with
    | '-' :: r => (true, r)
    | r => (false, r)
  let int? : Option (List Char × List Char) :=
    match cs1 with
    | '0' :: r => some (['0'], r)
    | c :: r => if isDigitC c && c ≠ '0' then some (c :: r.takeWhile isDigitC, r.dropWhile isDigitC) else none
    | [] => none
  match int? with
  | none => none
  | some (ds, cs2) =>
    let frac? : Option (List Char × List Char) :=
      match cs2 with
      | '.' :: r =>
        let fd := r.takeWhile isDigitC
        if fd.isEmpty then none else some (fd, r.dropWhile isDigitC)
      | r => some ([], r)
    match frac? with
    | none => none
    | some (fd, cs3) =>
      let exp? : Option (ℤ × List Char) :=
        match cs3 with
        | e :: r =>
          if e = 'e' || e = 'E' then
            let (eneg, r1) : Bool × List Char :=
              match r with
              | '-' :: r2 => (true, r2)
              | '+' :: r2 => (false, r2)
              | r2 => (false, r2)
            let ed := r1.takeWhile isDigitC
            if ed.isEmpty then none
            else some ((if eneg then -(digitsToNat ed : ℤ) else (digitsToNat ed : ℤ)), r1.dropWhile isDigitC)
          else some (0, cs3)
        | [] => some (0, cs3)
      match exp? with
      | none => none
      | some (e, cs4) =>
        let mag : ℚ := ((digitsToNat ds : ℚ) + (digitsToNat fd : ℚ) / ((10 : ℚ) ^ fd.length)) * (10 : ℚ) ^ e
        some ((if neg then -mag else mag), cs4)

/-- Insert a parsed object member with `JSON.parse` duplicate-key semantics:
the first occurrence keeps its position, the value is overwritten. -/
def insertField (fs : List (String × Json)) (k : String) (v : Json) : List (String × Json) :=
  if fs.any (fun f => f.1 = k) then fs.map (fun f => if f.1 = k then (k, v) else f)
  else fs ++ [(k, v)]

mutual

/-- Read one JSON value (fuel-bounded; the fuel is instantiated generously
by `tryParse`, so it never runs out on inputs it is actually applied to). -/
def readJValue : ℕ → List Char → Option (Json × List Char)
  | 0, _ => none
  | fuel + 1, cs =>
    match skipJWs cs with
    | '{' :: r => readJMembers fuel r true []
    | '[' :: r => readJElems fuel r true []
    | '"' :: r => (readJString r).map (fun p => (.str ⟨p.1⟩, p.2))
    | 't' :: 'r' :: 'u' :: 'e' :: r => some (.bool true, r)
    | 'f' :: 'a' :: 'l' :: 's' :: 'e' :: r => some (.bool false, r)
    | 'n' :: 'u' :: 'l' :: 'l' :: r => some (.null, r)
    | r => (readJNumber r).map (fun p => (.num p.1, p.2))

/-- Read array elements after `[` (when `first` is true, `]` may close the
empty array; otherwise a separating comma has just been consumed). -/
def readJElems : ℕ → List Char → Bool → List Json → Option (Json × List Char)
  | 0, _, _, _ => none
  | fuel + 1, cs, first, acc =>
    match skipJWs cs, first with
    | ']' :: r, true => some (.arr [], r)
    | _, _ =>
      match readJValue fuel cs with
      | none => none
      | some (v, rest) =>
        match skipJWs rest with
        | ']' :: r => some (.arr (acc ++ [v]), r)
        | ',' :: r => readJElems fuel r false (acc ++ [v])
        | _ => none

/-- Read object members after `{`. -/
def readJMembers : ℕ → List Char → Bool → List (String × Json) → Option (Json × List Char)
  | 0, _, _, _ => none
  | fuel + 1, cs, first, acc =>
    match skipJWs cs, first with
    | '}' :: r, true => some (.obj [], r)
    | other, _ =>
      match other with
      | '"' :: r =>
        match readJString r with
        | none => none
        | some (k, r2) =>
          match skipJWs r2 with
          | ':' :: r3 =>
            match readJValue fuel r3 with
            | none => none
            | some (v, rest) =>
              let acc2 := insertField acc ⟨k⟩ v
              match skipJWs rest with
              | '}' :: r4 => some (.obj acc2, r4)
              | ',' :: r4 => readJMembers fuel r4 false acc2
              | _ => none
          | _ => none
      | _ => none

end

/-- `JSON.parse` on a whole string: one value, nothing but whitespace after
it. -/
def jsonParse (cs : List Char) : Option Json :=
  match readJValue (4 * cs.length + 8) cs with
  | some (j, rest) => if (skipJWs rest).isEmpty then some j else none
  | none => none

/-- The `^\s*JSON\s*:\s*` label-stripping regex of `tryParse` (case
insensitive); when the pattern does not match, the string is unchanged. -/
def stripJsonLabel (cs : List Char) : List Char :=
  match cs.dropWhile isJsWs with
  | j :: s :: o :: n :: rest =>
    if j.toLower = 'j' && s.toLower = 's' && o.toLower = 'o' && n.toLower = 'n' then
      match rest.dropWhile isJsWs with
      | ':' :: r3 => r3.dropWhile isJsWs
      | _ => cs
    else cs
  | _ => cs

/-- `tryParse` from `askJourneyBot`: strip a leading "JSON:" label, trim,
then `JSON.parse`; `none` models the thrown `SyntaxError`. -/
def tryParse (cs : List Char) : Option Json :=
  jsonParse (trimL (stripJsonLabel cs))

/-! ### The extractor of `askJourneyBot`
(src/routes/index.tsx lines 103-182). -/

/-- JS slice: `text.slice(s, e)` on a character list. -/
def sliceL (cs : List Char) (s e : ℕ) : List Char := (cs.take e).drop s

/-- First index `≥ i` at which `pat` occurs in `cs` (substring search; the
fuel argument is `cs.length + 1 - i` at the top-level call). -/
def findSubFrom (cs pat : List Char) : ℕ → ℕ → Option ℕ
  | 0, _ => none
  | fuel + 1, i =>
    if pat.isPrefixOf (cs.drop i) then some i
    else if i < cs.length then findSubFrom cs pat fuel (i + 1) else none

/-- First occurrence of `pat` in `cs` at an index `≥ start`. -/
def findSub (cs pat : List Char) (start : ℕ) : Option ℕ :=
  findSubFrom cs pat (cs.length + 1 - start) start

/-- One match of the fenced-block regex ```` /```(?:json)?\s*([\s\S]*?)```/g ````:
the start offset, the whole matched text (`m[0]`) and the captured body
(`m[1]`). -/
structure FMatch where
  start : ℕ
  full : List Char
  group : List Char
deriving Repr, DecidableEq

/-- The fence token. -/
def fenceTok : List Char := "```".data

/-- All matches of the fenced-block regex, in document order, starting the
scan at offset `p` (`matchAll` semantics: after a match the scan resumes at
its end).  An optional `json` tag is consumed after the opening fence, then
greedy `\s*`, then the lazy body runs to the nearest closing fence; no
closing fence can hide inside the consumed tag or the whitespace run, so
this direct reading is exactly the regex backtracking behaviour. -/
def fencedAux (cs : List Char) : ℕ → ℕ → List FMatch
  | 0, _ => []
  | fuel + 1, p =>
    match findSub cs fenceTok p with
    | none => []
    | some a =>
      let afterOpen := a + 3
      let bodyStart :=
        if "json".data.isPrefixOf (cs.drop afterOpen) then afterOpen + 4 else afterOpen
      let q := bodyStart + ((cs.drop bodyStart).takeWhile isJsWs).length
      match findSub cs fenceTok q with
      | none => []
      | some r =>
        { start := a, full := sliceL cs a (r + 3), group := sliceL cs q r } ::
          fencedAux cs fuel (r + 3)

/-- All fenced-block matches of the extraction regex over the whole text. -/
def fencedMatches (cs : List Char) : List FMatch :=
  fencedAux cs (cs.length + 1) 0

/-- JS `String.prototype.replace` with a plain-string pattern and empty
replacement: remove the first occurrence only. -/
def replaceFirst (cs pat : List Char) : List Char :=
  match findSub cs pat 0 with
  | some i => cs.take i ++ cs.drop (i + pat.length)
  | none => cs

/-- The backward loop over fenced matches (`for i = length-1; i >= 0; i--`):
later matches are tried first, the first whose body parses wins. -/
def pickFenced : List FMatch → Option (FMatch × Json)
  | [] => none
  | m :: rest =>
    match pickFenced rest with
    | some r => some r
    | none => (tryParse m.group).map (fun j => (m, j))

/-- `isEscaped` of the fallback scanner: count the backslashes immediately
before `idx`, odd means escaped.  `backRun cs k` is the length of the
backslash run ending at index `k`, mirroring the downward counting loop. -/
def backRun (cs : List Char) : ℕ → ℕ
  | 0 => if cs[0]? = some '\\' then 1 else 0
  | k + 1 => if cs[k + 1]? = some '\\' then backRun cs k + 1 else 0

/-- A quote at `idx` is escaped iff preceded by an odd number of
backslashes. -/
def isEscaped (cs : List Char) (idx : ℕ) : Bool :=
  match idx with
  | 0 => false
  | j + 1 => backRun cs j % 2 = 1

/-- The inner stack loop of the fallback scanner, starting at position `j`
with the given bracket stack and in-string flag; returns the exclusive end
of the balanced region when the stack empties, `none` when the text ends or
a mismatched closer aborts the scan. -/
def scanInner (cs : List Char) : ℕ → ℕ → List Char → Bool → Option ℕ
  | 0, _, _, _ => none
  | fuel + 1, j, stack, inString =>
    match cs[j]? with
    | none => none
    | some c =>
      if c = '"' && !isEscaped cs j then scanInner cs fuel (j + 1) stack (!inString)
      else if inString then scanInner cs fuel (j + 1) stack inString
      else if c = '{' || c = '[' then scanInner cs fuel (j + 1) (c :: stack) inString
      else if c = '}' || c = ']' then
        match stack with
        | [] => none
        | last :: stk2 =>
          if (last = '{' && c ≠ '}') || (last = '[' && c ≠ ']') then none
          else if stk2.isEmpty then some (j + 1)
          else scanInner cs fuel (j + 1) stk2 inString
      else scanInner cs fuel (j + 1) stack inString

/-- The fallback scanner: for every opening-bracket position, the balanced
region the inner loop finds from it (start inclusive, end exclusive), in
order of the start position. -/
def scanCandidates (cs : List Char) : List (ℕ × ℕ) :=
  (List.range cs.length).filterMap (fun i =>
    match cs[i]? with
    | some c =>
      if c = '{' || c = '[' then
        (scanInner cs (cs.length + 1) (i + 1) [c] false).map (fun e => (i, e))
      else none
    | none => none)

/-- The backward loop over scanner candidates: later candidates are tried
first (`text.slice(start, end).trim()` is handed to `tryParse`). -/
def pickCands (cs : List Char) : List (ℕ × ℕ) → Option (ℕ × ℕ × Json)
  | [] => none
  | c :: rest =>
    match pickCands cs rest with
    | some r => some r
    | none => (tryParse (trimL (sliceL cs c.1 c.2))).map (fun j => (c.1, c.2, j))

/-- The whole extraction section of `askJourneyBot`: fenced blocks tried
backward first (winner's matched text removed via `replace`, then trim);
otherwise balanced-bracket candidates tried backward (winner's span removed
by index splicing, then trim); otherwise the raw text and a null payload. -/
def extractStructured (rawText : String) : String × Option Json :=
  let cs := rawText.data
  match pickFenced (fencedMatches cs) with
  | some (m, j) => (⟨trimL (replaceFirst cs m.full)⟩, some j)
  | none =>
    match pickCands cs (scanCandidates cs) with
    | some (s, e, j) => (⟨trimL (cs.take s ++ cs.drop e)⟩, some j)
    | none => (rawText, none)

/-! ### GeoJSON geometries and map points -/

/-- A GeoJSON geometry; coordinates are `(lng, lat)` pairs as in GeoJSON. -/
inductive Geom where
  | point (c : ℚ × ℚ)
  | lineString (cs : List (ℚ × ℚ))
  | multiLineString (css : List (List (ℚ × ℚ)))
  | polygon (rings : List (List (ℚ × ℚ)))
  | multiPolygon (ps : List (List (List (ℚ × ℚ))))
  | collection (gs : List Geom)
deriving Repr

/-- Is the geometry one of the four types the render path draws as a
filled/outlined layer (`Polygon`, `MultiPolygon`, `LineString`,
`MultiLineString`)? -/
def Geom.isDrawable : Geom → Bool
  | .polygon _ => true
  | .multiPolygon _ => true
  | .lineString _ => true
  | .multiLineString _ => true
  | _ => false

/-- Is the geometry a `Polygon` or `MultiPolygon`? -/
def Geom.isPolyish : Geom → Bool
  | .polygon _ => true
  | .multiPolygon _ => true
  | _ => false

/-- The `geojson` field of a `MapPoint`: a bare geometry, a single feature
(whose geometry may be absent), or a feature collection (a list of the
features' geometries, absent for a feature without one). -/
inductive GeoVal where
  | geom (g : Geom)
  | feature (g : Option Geom)
  | featureColl (fs : List (Option Geom))
deriving Repr

/-- A `MapPoint` as produced by the normalizer and consumed by `MapView`.
The coordinate fields keep the JS value type: the map view re-parses them
defensively, accepting strings. -/
structure MapPoint where
  day : JSNum
  name : String
  lat : JSVal
  lng : JSVal
  desc : String
  source : Option String
  budget : Option Json
  geojson : Option GeoVal
deriving Repr

/-! ### The normalizer — `ChatBox.handleSend`
(src/unnamed/part_001, lines 47-153). -/

/-- JS `Number()` on a string (after trim): empty is 0, `Infinity`
literals map to the infinities, otherwise a strict decimal
`[+-]? digits [. digits]` that must consume the whole string; anything
else is NaN.  (Hex and exponent literals are not modelled — they never
reach this code.) -/
def numberOfString (cs0 : List Char) : JSNum :=
  let t := trimL cs0
  if t.isEmpty then .fin 0
  else
    let signNeg : Bool := match t with
      | '-' :: _ => true
      | _ => false
    let c1 : List Char := match t with
      | '-' :: r => r
      | '+' :: r => r
      | r => r
    if c1 = "Infinity".data then (if signNeg then .ninf else .inf)
    else
      let d1 := c1.takeWhile isDigitC
      let r1 := c1.dropWhile isDigitC
      let (d2, r2) : List Char × List Char :=
        match r1 with
        | '.' :: r => (r.takeWhile isDigitC, r.dropWhile isDigitC)
        | r => ([], r)
      if r2.isEmpty && !(d1.isEmpty && d2.isEmpty) then
        let mag : ℚ := (digitsToNat d1 : ℚ) + (digitsToNat d2 : ℚ) / ((10 : ℚ) ^ d2.length)
        .fin (if signNeg then -mag else mag)
      else .nan

/-- JS `Number()` coercion of a parsed JSON value (arrays and objects go
through their string conversion, as in JS). -/
def jsNumber : Json → JSNum
  | .null => .fin 0
  | .bool b => .fin (if b then 1 else 0)
  | .num q => .fin q
  | .str s => numberOfString s.data
  | v => numberOfString v.toStr

/-- `extractBudgetRaw`: the first present (non-null, non-undefined) of the
five budget-ish keys. -/
def extractBudgetRaw (j : Json) : Option Json :=
  (j.getFieldNN "budget").or ((j.getFieldNN "cost").or
    ((j.getFieldNN "estimatedBudget").or ((j.getFieldNN "dayBudget").or
      (j.getFieldNN "price"))))

/-- `extractSource`: the first of `source`/`sourceUrl`/`url`/`wiki`, kept
only when it is a string. -/
def extractSource (d : Json) : Option String :=
  if !d.isObjLike then none
  else
    match (d.getFieldNN "source").or ((d.getFieldNN "sourceUrl").or
      ((d.getFieldNN "url").or (d.getFieldNN "wiki"))) with
    | some (.str s) => some s
    | _ => none

/-- `od[k1] ?? od[k2] ?? dflt`. -/
def fieldOr (od : Json) (k1 k2 : String) (dflt : Json) : Json :=
  (((od.getFieldNN k1).or (od.getFieldNN k2)).getD dflt)

/-- The record shape pushed for a place-list item or the single-place
payload: day 1, stringified name/description, `toNumber`-coerced
coordinates. -/
def mkPlacePoint (oi : Json) : MapPoint :=
  { day := .fin 1
    name := ⟨((oi.getFieldNN "name").getD (.str "")).toStr⟩
    lat := .num (.fin (toNumber (fieldOr oi "lat" "latitude" (.num 0))))
    lng := .num (.fin (toNumber (fieldOr oi "lng" "longitude" (.num 0))))
    desc := ⟨(((oi.getFieldNN "desc").or (oi.getFieldNN "description")).getD (.str "")).toStr⟩
    source := extractSource oi
    budget := extractBudgetRaw oi
    geojson := none }

/-- The record shape pushed for one destination of an itinerary day
(budget falls back from the destination to the day object). -/
def mkItinPoint (dayNum : JSNum) (dobj od : Json) : MapPoint :=
  { day := dayNum
    name := ⟨((od.getFieldNN "name").getD (.str "")).toStr⟩
    lat := .num (.fin (toNumber (fieldOr od "lat" "latitude" (.num 0))))
    lng := .num (.fin (toNumber (fieldOr od "lng" "longitude" (.num 0))))
    desc := ⟨(((od.getFieldNN "desc").or (od.getFieldNN "description")).getD (.str "")).toStr⟩
    source := extractSource od
    budget := (extractBudgetRaw od).or (extractBudgetRaw dobj)
    geojson := none }

/-- The branch test `first && typeof first === "object" && "day" in first`
deciding the itinerary form. -/
def itinShape : Json → Bool
  | .arr (first :: _) => first.truthy && first.isObjLike && first.hasKey "day"
  | _ => false

/-- The whole normalization of `handleSend`: truthy payloads only; an
itinerary-shaped array explodes day objects into their destinations, any
other array is a place list (day 1), a plain object is a single place
(day 1); anything else yields nothing. -/
def normalizePoints (jsonData : Json) : List MapPoint :=
  if !jsonData.truthy then []
  else
    match jsonData with
    | .arr xs =>
      if itinShape (.arr xs) then
        xs.flatMap (fun dayObj =>
          if dayObj.truthy && dayObj.isObjLike then
            let dayNum := jsNumber ((dayObj.getFieldNN "day").getD (.num 0))
            match dayObj.getField "destinations" with
            | some (.arr dests) =>
              dests.filterMap (fun d =>
                if d.truthy && d.isObjLike then some (mkItinPoint dayNum dayObj d) else none)
            | _ => []
          else [])
      else
        xs.filterMap (fun item =>
          if item.truthy && item.isObjLike then some (mkPlacePoint item) else none)
    | .obj fs => [mkPlacePoint (.obj fs)]
    | _ => []

/-! ### `MapView` helpers
(src/components/Map/MapView.tsx). -/

/-- The robust coordinate parser inside `normalizeLatLng`: numbers pass
through (including the IEEE specials), null/undefined and unparseable
strings become NaN, parsed strings must be finite. -/
def parseCoord : JSVal → JSNum
  | .nullv => .nan
  | .num n => n
  | .str s =>
    match parseFloatQ (numericClean s.data) with
    | some q => .fin q
    | none => .nan

/-- `looksLikeLat` of the Vietnam heuristic: `v >= 6 && v <= 30`. -/
def looksLikeLat (v : JSNum) : Bool := v.geJ (.fin 6) && v.leJ (.fin 30)

/-- `looksLikeLng` of the Vietnam heuristic: `v >= 95 && v <= 120`. -/
def looksLikeLng (v : JSNum) : Bool := v.geJ (.fin 95) && v.leJ (.fin 120)

/-- `normalizeLatLng` (MapView.tsx lines 168-229): parse both fields; on
NaN return `(raw || 0)` for each; otherwise swap when `|lat| > 90` and
`|lng| <= 90`, or else when the Vietnam band heuristic fires; the result is
`(lat, lng)`. -/
def normalizeLatLng (p : MapPoint) : JSNum × JSNum :=
  let rawLat := parseCoord p.lat
  let rawLng := parseCoord p.lng
  if rawLat.isNaNB || rawLng.isNaNB then
    (rawLat.orZero, rawLng.orZero)
  else if rawLat.absJ.gtJ (.fin 90) && rawLng.absJ.leJ (.fin 90) then
    (rawLng, rawLat)
  else if looksLikeLat rawLng && looksLikeLng rawLat then
    (rawLng, rawLat)
  else (rawLat, rawLng)

/-- Lower-case ASCII letter or digit (the `[a-z0-9]` class applied after
`toLowerCase`). -/
def isLowerAlnum (c : Char) : Bool := ('a' ≤ c && c ≤ 'z') || isDigitC c

/-- `replace(/[^a-z0-9]+/g, "-")`: every maximal run of other characters
becomes a single dash. -/
def collapseRuns : List Char → List Char
  | [] => []
  | [c] => if isLowerAlnum c then [c] else ['-']
  | c1 :: c2 :: rest =>
    if isLowerAlnum c1 then c1 :: collapseRuns (c2 :: rest)
    else if isLowerAlnum c2 then '-' :: collapseRuns (c2 :: rest)
    else collapseRuns (c2 :: rest)

/-- `replace(/(^-|-$)+/g, "")` applied to a run-collapsed string: after
collapsing there is at most one leading and one trailing dash, and the
anchored regex removes exactly those. -/
def stripEdgeDash (l : List Char) : List Char :=
  let l1 : List Char := match l with
    | '-' :: r => r
    | r => r
  match l1.reverse with
  | '-' :: r => r.reverse
  | _ => l1

/-- `slug` (MapView.tsx lines 231-235).  `Char.toLower` models
`toLowerCase` (they agree on ASCII, the relevant alphabet for the
`[a-z0-9]` class). -/
def slug (s : String) : List Char :=
  stripEdgeDash (collapseRuns (s.data.map Char.toLower))

/-- The outline source id `outline-${p0.day ?? 0}-${idx}-${slug(p0.name)}`
(`day` is a number in every produced point, so the `?? 0` arm never
fires). -/
def srcIdOf (day : JSNum) (idx : ℕ) (name : String) : String :=
  "outline-" ++ ⟨day.toStr⟩ ++ "-" ++ ⟨natDigits idx⟩ ++ "-" ++ ⟨slug name⟩

/-- A bounding box `[minLng, minLat, maxLng, maxLat]`. -/
structure BBox where
  minX : ℚ
  minY : ℚ
  maxX : ℚ
  maxY : ℚ
deriving Repr, DecidableEq

/-- `expandBBox` (MapView.tsx lines 237-254). -/
def expandBBox (b : BBox) (factor : ℚ) : BBox :=
  let dx := b.maxX - b.minX
  let dy := b.maxY - b.minY
  let padX := if dx = 0 then (1 : ℚ) / 100 else dx * factor
  let padY := if dy = 0 then (1 : ℚ) / 100 else dy * factor
  ⟨b.minX - padX, b.minY - padY, b.maxX + padX, b.maxY + padY⟩

/-- All coordinate pairs visited by `visitCoords` in `geometryBBox`. -/
def geomCoords : Geom → List (ℚ × ℚ)
  | .point c => [c]
  | .lineString cs => cs
  | .multiLineString css => css.flatMap (fun r => r)
  | .polygon rings => rings.flatMap (fun r => r)
  | .multiPolygon ps => ps.flatMap (fun poly => poly.flatMap (fun r => r))
  | .collection gs => gs.attach.flatMap (fun g => geomCoords g.1)
termination_by g => sizeOf g
decreasing_by
  have := List.sizeOf_lt_of_mem g.2
  simp only [Geom.collection.sizeOf_spec]
  omega

/-- `geometryBBox` (MapView.tsx lines 405-468): min/max over every visited
coordinate; `none` when no coordinate was visited (the non-finite guard). -/
def geometryBBox (g : Geom) : Option BBox :=
  match geomCoords g with
  | [] => none
  | c :: rest =>
    some (rest.foldl (fun b p => ⟨min b.minX p.1, min b.minY p.2, max b.maxX p.1, max b.maxY p.2⟩)
      ⟨c.1, c.2, c.1, c.2⟩)

/-- A GeoJSON feature (properties carry no information used here). -/
structure GeoFeature where
  geometry : Geom
deriving Repr

/-- The vertex loop of `makeCircle` (MapView.tsx lines 108-126),
parametric in the trigonometric primitives and pi (`Math.cos`, `Math.sin`,
`Math.PI` are external): `steps` vertices around the center.  The closing
`coords.push(coords[0])` then re-appends the first vertex (for `steps = 0`
that JS push would append `undefined`, modelled as appending nothing — the
function is only invoked with `steps = 64`). -/
def circleCoords (cosF sinF : ℚ → ℚ) (piQ lng lat radius : ℚ) (steps : ℕ) : List (ℚ × ℚ) :=
  let degPerMeterLat : ℚ := 360 / 40075000
  (List.range steps).map (fun (i : ℕ) =>
    let theta := ((i : ℚ) / (steps : ℚ)) * piQ * 2
    let dLat := radius * cosF theta * degPerMeterLat
    let dLng := radius * sinF theta * degPerMeterLat / cosF (lat * piQ / 180)
    (lng + dLng, lat + dLat))

/-- `makeCircle` itself: the vertex ring closed by re-appending the first
vertex. -/
def makeCircle (cosF sinF : ℚ → ℚ) (piQ : ℚ) (lng lat radius : ℚ) (steps : ℕ) : GeoFeature :=
  let coords := circleCoords cosF sinF piQ lng lat radius steps
  let ring := coords ++ coords.take 1
  { geometry := .polygon [ring] }

/-! ### `fetchBoundaryFromNominatim`
(MapView.tsx lines 256-402), over a network oracle. -/

/-- Outcome of one `fetch`: a rejected promise / network failure (which
throws), or an HTTP response with its ok flag and — when `res.json()`
succeeds — a parsed body. -/
inductive NetResp (α : Type) where
  | netError
  | resp (ok : Bool) (body : Option α)

/-- One entry of the Nominatim search response, with just the fields the
code reads. -/
structure NomResult where
  geojson : Option Geom
  cls : Option String
  boundingbox : Option (List ℚ)
  osmType : Option String
  osmId : Option ℤ
deriving Repr

/-- A parsed search body: either not an array at all, or an array whose
entries are objects (`some`) or non-objects (`none`, filtered out). -/
inductive SearchVal where
  | nonArray
  | arrOf (xs : List (Option NomResult))

/-- A parsed details body. -/
structure DetailsVal where
  geojson : Option Geom
  polygonGeojson : Option Geom

/-- The external geocoding service: the search endpoint keyed by the query
name, the details endpoint keyed by osm type letter and id. -/
structure Oracle where
  search : String → NetResp SearchVal
  details : String → ℤ → NetResp DetailsVal

/-- `mapType[...] ?? String(osm_type).charAt(0).toUpperCase()`. -/
def osmTypeLetter (t : String) : String :=
  let lower : String := ⟨t.data.map Char.toLower⟩
  if lower = "relation" then "R"
  else if lower = "way" then "W"
  else if lower = "node" then "N"
  else
    match t.data with
    | c :: _ => ⟨[c.toUpper]⟩
    | [] => ""

/-- Keep a geometry only when it is a Polygon or MultiPolygon. -/
def keepPoly : Option Geom → Option Geom
  | some g => if g.isPolyish then some g else none
  | none => none

/-- Candidate selection (MapView.tsx lines 283-325): first a result whose
inline geojson is already a (multi)polygon, then one of the preferred
place classes, then the result with the strictly largest bounding-box
area, finally `results[0]`. -/
def candidateOf (results : List NomResult) : Option NomResult :=
  match results.find? (fun r => (keepPoly r.geojson).isSome) with
  | some c => some c
  | none =>
    let preferred := ["tourism", "natural", "landuse", "leisure", "historic"]
    match results.find? (fun r => match r.cls with
      | some c => preferred.contains c
      | none => false) with
    | some c => some c
    | none =>
      let best := (results.foldl (fun (acc : Option NomResult × ℚ) a =>
        match a.boundingbox with
        | some [v0, v1, v2, v3] =>
          let area := |(max v0 v1 - min v0 v1) * (max v2 v3 - min v2 v3)|
          if acc.2 < area then (some a, area) else acc
        | _ => acc) (none, 0)).1
      match best with
      | some b => some b
      | none => results.head?

/-- The bounding-box rectangle fallback (order-normalizing min/max over
the four values, as vals may arrive `[south, north, west, east]`). -/
def bboxRect (vals : List ℚ) : Option Geom :=
  match vals with
  | [v0, v1, v2, v3] =>
    let minLatVal := min v0 v1
    let maxLatVal := max v0 v1
    let minLngVal := min v2 v3
    let maxLngVal := max v2 v3
    some (.polygon [[(minLngVal, minLatVal), (maxLngVal, minLatVal),
      (maxLngVal, maxLatVal), (minLngVal, maxLatVal), (minLngVal, minLatVal)]])
  | _ => none

/-- The details lookup and bounding-box tail of the resolver, entered when
the chosen candidate has no inline polygon. -/
def fetchTail (o : Oracle) (first : NomResult) : Except Unit (Option Geom) :=
  let detRes : Except Unit (Option Geom) :=
    match first.osmType, first.osmId with
    | some t, some idv =>
      if t ≠ "" && idv ≠ 0 then
        match o.details (osmTypeLetter t) idv with
        | .netError => .error ()
        | .resp ok body =>
          if ok then
            match body with
            | none => .error ()
            | some d => .ok ((keepPoly d.geojson).or (keepPoly d.polygonGeojson))
          else .ok none
      else .ok none
    | _, _ => .ok none
  match detRes with
  | .error e => .error e
  | .ok (some g) => .ok (some g)
  | .ok none =>
    match first.boundingbox with
    | some vals => .ok (bboxRect vals)
    | none => .ok none

/-- The body of `fetchBoundaryFromNominatim` before its `catch`: `.error`
models a thrown exception, `.ok` a normal return. -/
def fetchBoundaryE (o : Oracle) (p : MapPoint) : Except Unit (Option Geom) :=
  match o.search p.name with
  | .netError => .error ()
  | .resp ok body =>
    if !ok then .ok none
    else
      match body with
      | none => .error ()
      | some .nonArray => .ok none
      | some (.arrOf raws) =>
        if raws.isEmpty then .ok none
        else
          let results := raws.filterMap (fun x => x)
          match candidateOf results with
          | none => .ok none
          | some first =>
            match keepPoly first.geojson with
            | some g => .ok (some g)
            | none => fetchTail o first

/-- `fetchBoundaryFromNominatim`: the `try`/`catch` wrapper — every
exception degrades to `null`. -/
def fetchBoundaryFromNominatim (o : Oracle) (p : MapPoint) : Option Geom :=
  match fetchBoundaryE o p with
  | .ok r => r
  | .error _ => none

/-! ### The `updateMapView` render pass
(MapView.tsx lines 471-740).  Pure map-engine mutations (markers, popups,
layers) are external; the model tracks the outline cache (`outlinesRef`),
the boundary fetches that were issued, the accumulated combined bound and
the final viewport action. -/

/-- What the embedded `p0.geojson` unwrap (lines 549-592) leaves in the
`geometry` variable.  A bare `Feature` falls into the `"type" in gj`
branch and is cast to a (non-)geometry whose type is `"Feature"`: non-null
(so no fetch is issued) but never drawable — the `junk` case. -/
inductive EmbRes where
  | noGeom
  | junk
  | geom (g : Geom)

/-- Unwrap the embedded geojson value. -/
def embedResult : Option GeoVal → EmbRes
  | none => .noGeom
  | some (.featureColl fs) =>
    match fs.find? (fun f => match f with
      | some g => g.isDrawable
      | none => false) with
    | some (some g) => .geom g
    | _ =>
      match fs.head? with
      | some (some g) => .geom g
      | _ => .noGeom
  | some (.feature _) => .junk
  | some (.geom g) => .geom g

/-- `Map.prototype.set`: overwrite in place or append. -/
def mapSet (m : List (String × Option Geom)) (k : String) (v : Option Geom) :
    List (String × Option Geom) :=
  if m.any (fun e => e.1 = k) then m.map (fun e => if e.1 = k then (k, v) else e)
  else m ++ [(k, v)]

/-- Mutable state threaded through the per-destination loop. -/
structure LoopSt where
  outlines : List (String × Option Geom)
  combined : Option BBox
  fetched : List String
deriving Repr

/-- Finite part of a JS number for bounds arithmetic (an infinity reaching
the mapbox bounds is out of scope of every claim; it is collapsed to 0
here). -/
def JSNum.toQ : JSNum → ℚ
  | .fin q => q
  | _ => 0

/-- Extend a bound by one point (`LngLatBounds.extend`). -/
def extendPt (b : BBox) (x y : ℚ) : BBox :=
  ⟨min b.minX x, min b.minY y, max b.maxX x, max b.maxY y⟩

/-- Merge an expanded box into the combined bound (constructor on first
use, two corner extends afterwards). -/
def mergeB (c : Option BBox) (e : BBox) : BBox :=
  match c with
  | none => e
  | some b => extendPt (extendPt b e.minX e.minY) e.maxX e.maxY

/-- Merge a raw point into the combined bound. -/
def mergePt (c : Option BBox) (x y : ℚ) : BBox :=
  match c with
  | none => ⟨x, y, x, y⟩
  | some b => extendPt b x y

/-- One iteration of the sequential destination loop (lines 498-714):
normalize, unwrap or fetch the geometry, store it (or null) in the outline
cache under the compound source id, and grow the combined bound — via the
expanded geometry bbox, the raw point, or the expanded fixed-delta box of
the circle fallback.  The rendered circle itself is engine output and
carries no state. -/
def procPoint (o : Oracle) (st : LoopSt) (idx : ℕ) (p : MapPoint) : LoopSt :=
  let ll := normalizeLatLng p
  let lat := ll.1.toQ
  let lng := ll.2.toQ
  let emb := embedResult p.geojson
  let fr : Option Geom × Bool :=
    match emb with
    | .noGeom => (fetchBoundaryFromNominatim o p, true)
    | .junk => (none, false)
    | .geom g => (some g, false)
  let srcId := srcIdOf p.day idx p.name
  let outlines2 := mapSet st.outlines srcId fr.1
  let fetched2 := if fr.2 then st.fetched ++ [p.name] else st.fetched
  let combined2 : BBox :=
    match fr.1 with
    | some g =>
      if g.isDrawable then
        match geometryBBox g with
        | some b => mergeB st.combined (expandBBox b (6 / 100))
        | none => mergePt st.combined lng lat
      else
        mergeB st.combined
          (expandBBox ⟨lng - 8 / 1000, lat - 8 / 1000, lng + 8 / 1000, lat + 8 / 1000⟩ (4 / 100))
    | none =>
      mergeB st.combined
        (expandBBox ⟨lng - 8 / 1000, lat - 8 / 1000, lng + 8 / 1000, lat + 8 / 1000⟩ (4 / 100))
  { outlines := outlines2, combined := some combined2, fetched := fetched2 }

/-- The sequential loop over the active destinations. -/
def procList (o : Oracle) : LoopSt → ℕ → List MapPoint → LoopSt
  | st, _, [] => st
  | st, idx, p :: rest => procList o (procPoint o st idx p) (idx + 1) rest

/-- The day selection: a specific day or the `"all"` sentinel. -/
inductive SelDay where
  | all
  | day (d : JSNum)

/-- The active subset (lines 479-484): under `"all"`, a single point shows
itself, several points show only the first point's day; under a selected
day, strict equality filtering. -/
def activePointsOf (points : List MapPoint) (sel : SelDay) : List MapPoint :=
  match sel with
  | .all =>
    if points.length = 1 then points
    else
      match points with
      | [] => []
      | p0 :: _ => points.filter (fun p => p.day.eqJ p0.day)
  | .day d => points.filter (fun p => p.day.eqJ d)

/-- The final viewport command of one pass. -/
inductive ViewAction where
  | flyToDefault
  | fitBounds (b : BBox)
  | flyToPoint (lng lat : JSNum) (zoom : ℚ)
  | fitRawPoints (pts : List MapPoint)
deriving Repr

/-- The observable outcome of one pass: the outline cache, the issued
boundary fetches (by query name, in order), and the viewport command. -/
structure PassResult where
  outlines : List (String × Option Geom)
  fetched : List String
  action : ViewAction
deriving Repr

/-- One pass of `updateMapView`: compute the active subset; empty resets
the viewport; otherwise process the destinations sequentially and then fit
the combined bound if one was accumulated, else fly to a single point,
else fit the raw point set. -/
def updateMapView (o : Oracle) (points : List MapPoint) (sel : SelDay)
    (outlines0 : List (String × Option Geom)) : PassResult :=
  let active := activePointsOf points sel
  if active.isEmpty then { outlines := outlines0, fetched := [], action := .flyToDefault }
  else
    let st := procList o { outlines := outlines0, combined := none, fetched := [] } 0 active
    let action : ViewAction :=
      match st.combined with
      | some b => .fitBounds b
      | none =>
        match active with
        | [p0] =>
          let ll := normalizeLatLng p0
          .flyToPoint ll.2 ll.1 16
        | _ => .fitRawPoints active
    { outlines := st.outlines, fetched := st.fetched, action := action }

/-! ### Spec-side reference definitions and concrete fixtures -/

/-- Declarative backslash count for the escaping rule of the spec: the
length of the maximal run of backslashes at the end of a prefix. -/
def trailingBackslashes (cs : List Char) : ℕ :=
  (cs.reverse.takeWhile (fun c => c = '\\')).length

/-- An oracle on which every network request fails. -/
def oracleFail : Oracle :=
  { search := fun _ => .netError, details := fun _ _ => .netError }

/-- A plain in-range destination. -/
def pointHanoi : MapPoint :=
  { day := .fin 1, name := "hanoi", lat := .num (.fin 10), lng := .num (.fin 106),
    desc := "", source := none, budget := none, geojson := none }

/-- A destination with transposed coordinates (`lat=110, lng=21`). -/
def pointSwapped : MapPoint :=
  { pointHanoi with name := "swapped", lat := .num (.fin 110), lng := .num (.fin 21) }

/-- A destination whose latitude field is the number `Infinity`. -/
def pointInfLat : MapPoint :=
  { pointHanoi with name := "infinite", lat := .num .inf, lng := .num (.fin 0) }

/-- A destination whose latitude field is an unparseable string. -/
def pointBadLat : MapPoint :=
  { pointHanoi with name := "bad", lat := .str "abc" }

/-! ## Theorems -/

/-! ### Shared helper lemmas -/

/-- The backward fenced-block loop returns exactly the last match whose
body parses, with its parsed value. -/
theorem pickFenced_eq (ms : List FMatch) :
    pickFenced ms = (ms.reverse.find? (fun m => (tryParse m.group).isSome)).bind
      (fun m => (tryParse m.group).map (fun j => (m, j))) := by
  induction ms with
  | nil => rfl
  | cons m rest ih =>
    simp only [pickFenced, ih, List.reverse_cons, List.find?_append]
    cases hfind : rest.reverse.find? (fun m => (tryParse m.group).isSome) with
    | some x =>
      have hx := List.find?_some hfind
      rw [Option.isSome_iff_exists] at hx
      obtain ⟨j, hj⟩ := hx
      simp [hj, Option.or]
    | none =>
      simp only [Option.none_or, Option.none_bind]
      cases hp : tryParse m.group with
      | some j => simp [List.find?, hp]
      | none => simp [List.find?, hp]

/-- Decimal digit characters are never a dash. -/
theorem digitChar_ne_dash : ∀ d < 10, digitChar d ≠ '-' := by decide

/-- Decimal digit characters are distinct. -/
theorem digitChar_inj : ∀ a < 10, ∀ b < 10, digitChar a = digitChar b → a = b := by decide

/-- A sufficiently fuelled digit expansion is nonempty. -/
theorem natDigitsAux_ne_nil (fuel n : ℕ) (h : n < fuel) : natDigitsAux fuel n ≠ [] := by
  cases fuel with
  | zero => omega
  | succ f =>
    simp only [natDigitsAux]
    split
    · simp
    · simp

/-- Digit expansions contain no dash. -/
theorem natDigitsAux_no_dash : ∀ (fuel n : ℕ), n < fuel → ∀ c ∈ natDigitsAux fuel n, c ≠ '-' := by
  intro fuel
  induction fuel with
  | zero => intro n h; omega
  | succ f ih =>
    intro n h c hc
    by_cases h10 : n < 10
    · simp only [natDigitsAux, if_pos h10] at hc
      simp only [List.mem_singleton] at hc
      subst hc
      exact digitChar_ne_dash n h10
    · simp only [natDigitsAux, if_neg h10] at hc
      have hd : n / 10 < n := Nat.div_lt_self (by omega) (by omega)
      rcases List.mem_append.mp hc with h1 | h2
      · exact ih (n / 10) (by omega) c h1
      · simp only [List.mem_singleton] at h2
        subst h2
        exact digitChar_ne_dash (n % 10) (Nat.mod_lt n (by omega))

/-- Decimal expansion is injective. -/
theorem natDigitsAux_inj : ∀ (f1 f2 a b : ℕ), a < f1 → b < f2 →
    natDigitsAux f1 a = natDigitsAux f2 b → a = b := by
  intro f1
  induction f1 with
  | zero => intro f2 a b ha; omega
  | succ s ih =>
    intro f2 a b ha hb heq
    cases f2 with
    | zero => omega
    | succ t =>
      by_cases ha10 : a < 10 <;> by_cases hb10 : b < 10
      · simp only [natDigitsAux, if_pos ha10, if_pos hb10, List.cons.injEq] at heq
        exact digitChar_inj a ha10 b hb10 heq.1
      · simp only [natDigitsAux, if_pos ha10, if_neg hb10] at heq
        have hd : b / 10 < b := Nat.div_lt_self (by omega) (by omega)
        have hne := natDigitsAux_ne_nil t (b / 10) (by omega)
        have hlen := congrArg List.length heq
        simp only [List.length_singleton, List.length_append] at hlen
        have : natDigitsAux t (b / 10) = [] := List.eq_nil_of_length_eq_zero (by omega)
        exact absurd this hne
      · simp only [natDigitsAux, if_neg ha10, if_pos hb10] at heq
        have hd : a / 10 < a := Nat.div_lt_self (by omega) (by omega)
        have hne := natDigitsAux_ne_nil s (a / 10) (by omega)
        have hlen := congrArg List.length heq
        simp only [List.length_singleton, List.length_append] at hlen
        have : natDigitsAux s (a / 10) = [] := List.eq_nil_of_length_eq_zero (by omega)
        exact absurd this hne
      · simp only [natDigitsAux, if_neg ha10, if_neg hb10] at heq
        obtain ⟨hpre, hlast⟩ := List.append_inj' heq rfl
        simp only [List.cons.injEq] at hlast
        have hmod := digitChar_inj (a % 10) (Nat.mod_lt a (by omega)) (b % 10)
          (Nat.mod_lt b (by omega)) hlast.1
        have hda : a / 10 < a := Nat.div_lt_self (by omega) (by omega)
        have hdb : b / 10 < b := Nat.div_lt_self (by omega) (by omega)
        have hdiv := ih t (a / 10) (b / 10) (by omega) (by omega) hpre
        omega

/-- Injectivity of `natDigits`. -/
theorem natDigits_inj {a b : ℕ} (h : natDigits a = natDigits b) : a = b :=
  natDigitsAux_inj (a + 1) (b + 1) a b (Nat.lt_succ_self a) (Nat.lt_succ_self b) h

/-- `natDigits` lists carry no dash. -/
theorem natDigits_no_dash (n : ℕ) : ∀ c ∈ natDigits n, c ≠ '-' :=
  natDigitsAux_no_dash (n + 1) n (Nat.lt_succ_self n)

/-- `natDigits` lists are nonempty. -/
theorem natDigits_ne_nil (n : ℕ) : natDigits n ≠ [] :=
  natDigitsAux_ne_nil (n + 1) n (Nat.lt_succ_self n)

/-- The dash is not a member of a `natDigits` list. -/
theorem natDigits_dash_not_mem (n : ℕ) : '-' ∉ natDigits n :=
  fun hm => natDigits_no_dash n '-' hm rfl

/-- Integer decimal printing is injective. -/
theorem intStr_inj {i j : ℤ} (h : intStr i = intStr j) : i = j := by
  unfold intStr at h
  split at h <;> split at h
  · rename_i hi hj
    simp only [List.cons.injEq, true_and] at h
    have := natDigits_inj h
    omega
  · rename_i hi hj
    have hm : '-' ∈ natDigits j.toNat := h ▸ List.mem_cons_self '-' _
    exact absurd rfl (natDigits_no_dash _ '-' hm)
  · rename_i hi hj
    have hm : '-' ∈ natDigits i.toNat := h.symm ▸ List.mem_cons_self '-' _
    exact absurd rfl (natDigits_no_dash _ '-' hm)
  · rename_i hi hj
    have := natDigits_inj h
    omega

/-- `takeWhile` runs through a satisfying prefix and stops at the failing
separator. -/
theorem takeWhile_append_of_all {p : Char → Bool} : ∀ (xs : List Char) (y : Char) (ys : List Char),
    (∀ x ∈ xs, p x = true) → p y = false → (xs ++ y :: ys).takeWhile p = xs := by
  intro xs
  induction xs with
  | nil => intro y ys h hy; simp [List.takeWhile_cons, hy]
  | cons x xs ih =>
    intro y ys h hy
    have hx : p x = true := h x (by simp)
    simp only [List.cons_append, List.takeWhile_cons, hx, if_pos]
    rw [ih y ys (fun a ha => h a (by simp [ha])) hy]

/-- Splitting a dash-separated concatenation whose suffixes are dash-free is
unambiguous. -/
theorem append_dash_cancel (A1 B1 A2 B2 : List Char)
    (hb1 : '-' ∉ B1) (hb2 : '-' ∉ B2)
    (h : A1 ++ '-' :: B1 = A2 ++ '-' :: B2) : A1 = A2 ∧ B1 = B2 := by
  have hr := congrArg List.reverse h
  simp only [List.reverse_append, List.reverse_cons, List.append_assoc,
    List.singleton_append] at hr
  have hall1 : ∀ x ∈ B1.reverse, (x != '-') = true := by
    intro x hx
    simp only [bne_iff_ne, ne_eq]
    intro e
    exact hb1 (e ▸ List.mem_reverse.mp hx)
  have hall2 : ∀ x ∈ B2.reverse, (x != '-') = true := by
    intro x hx
    simp only [bne_iff_ne, ne_eq]
    intro e
    exact hb2 (e ▸ List.mem_reverse.mp hx)
  have t1 := takeWhile_append_of_all (p := fun c => c != '-') B1.reverse '-' A1.reverse hall1 (by simp)
  have t2 := takeWhile_append_of_all (p := fun c => c != '-') B2.reverse '-' A2.reverse hall2 (by simp)
  have hbeq : B1.reverse = B2.reverse := by rw [← t1, ← t2, hr]
  have hb : B1 = B2 := List.reverse_injective hbeq
  constructor
  · rw [hb] at h
    exact List.append_cancel_right h
  · exact hb

/-- Printing an integer-valued rational yields the integer's decimal
representation. -/
theorem qToString_intCast (d : ℤ) : qToString ((d : ℚ)) = intStr d := by
  unfold qToString
  rw [if_pos (Rat.den_intCast d), Rat.num_intCast]

/-- The character data of an outline source id, right-associated. -/
theorem srcIdOf_data (day : JSNum) (idx : ℕ) (nm : String) :
    (srcIdOf day idx nm).data =
      "outline-".data ++ (day.toStr ++ '-' :: (natDigits idx ++ '-' :: slug nm)) := by
  unfold srcIdOf
  simp [String.data_append, List.append_assoc]

/-- Core injectivity of the compound outline key: same slug, equal keys
force equal (integer) day and equal index. -/
theorem srcIdOf_inj_core (d1 d2 : ℤ) (i1 i2 : ℕ) (nm : String)
    (h : srcIdOf (.fin (d1 : ℚ)) i1 nm = srcIdOf (.fin (d2 : ℚ)) i2 nm) :
    d1 = d2 ∧ i1 = i2 := by
  have hd := congrArg String.data h
  rw [srcIdOf_data, srcIdOf_data] at hd
  have hd2 := List.append_cancel_left hd
  simp only [JSNum.toStr, qToString_intCast] at hd2
  have regroup : ∀ X Y S : List Char,
      X ++ '-' :: (Y ++ '-' :: S) = (X ++ '-' :: Y) ++ '-' :: S := by
    intro X Y S
    simp [List.append_assoc]
  rw [regroup, regroup] at hd2
  have hs := List.append_cancel_right hd2
  have hsplit := append_dash_cancel _ _ _ _ (natDigits_dash_not_mem i1) (natDigits_dash_not_mem i2) hs
  exact ⟨intStr_inj hsplit.1, natDigits_inj hsplit.2⟩

/-- Each loop iteration leaves an accumulated combined bound. -/
theorem procPoint_combined_isSome (o : Oracle) (st : LoopSt) (idx : ℕ) (p : MapPoint) :
    ((procPoint o st idx p).combined).isSome := by
  simp [procPoint]

/-- After a nonempty loop, a combined bound has been accumulated. -/
theorem procList_combined_isSome (o : Oracle) :
    ∀ (l : List MapPoint) (st : LoopSt) (idx : ℕ), l ≠ [] →
    ((procList o st idx l).combined).isSome := by
  intro l
  induction l with
  | nil => intro st idx h; exact absurd rfl h
  | cons p rest ih =>
    intro st idx h
    by_cases hr : rest = []
    · subst hr
      simpa [procList] using procPoint_combined_isSome o st idx p
    · exact ih (procPoint o st idx p) (idx + 1) hr

/-- The downward backslash-counting loop computes the length of the
maximal backslash run ending just before the position. -/
theorem backRun_eq (cs : List Char) : ∀ (k : ℕ), k < cs.length →
    backRun cs k = trailingBackslashes (cs.take (k + 1)) := by
  intro k
  induction k with
  | zero =>
    intro hk
    cases cs with
    | nil => simp at hk
    | cons c rest =>
      simp only [backRun, trailingBackslashes, List.take_succ_cons, List.take_zero,
        List.reverse_singleton]
      by_cases hc : c = '\\'
      · simp [hc, List.takeWhile_cons]
      · simp only [List.getElem?_cons_zero] at *
        simp [hc, List.takeWhile_cons]
  | succ j ih =>
    intro hk
    have hj : j < cs.length := by omega
    have htake : cs.take (j + 2) = cs.take (j + 1) ++ [cs[j + 1]] := by
      rw [List.take_succ]
      simp [List.getElem?_eq_getElem hk]
    rw [backRun, htake]
    simp only [trailingBackslashes, List.reverse_append, List.reverse_singleton,
      List.singleton_append, List.takeWhile_cons]
    by_cases hc : cs[j + 1] = '\\'
    · rw [List.getElem?_eq_getElem hk]
      simp only [hc, if_pos rfl, decide_True, List.length_cons]
      rw [ih hj]
      simp [trailingBackslashes]
    · rw [List.getElem?_eq_getElem hk]
      simp [hc]

/-- `isEscaped` agrees with the declarative odd-backslash-run rule for
every in-range position. -/
theorem isEscaped_spec (cs : List Char) : ∀ (idx : ℕ), idx ≤ cs.length →
    isEscaped cs idx = decide (trailingBackslashes (cs.take idx) % 2 = 1) := by
  intro idx h
  match idx with
  | 0 => simp [isEscaped, trailingBackslashes]
  | j + 1 =>
    have hj : j < cs.length := by omega
    simp only [isEscaped]
    rw [backRun_eq cs j hj]

/-- A coordinate field that is not a literal infinity parses to NaN or to a
finite value. -/
theorem parseCoord_cases (v : JSVal) (h1 : v ≠ .num .inf) (h2 : v ≠ .num .ninf) :
    parseCoord v = .nan ∨ ∃ q, parseCoord v = .fin q := by
  cases v with
  | nullv => left; rfl
  | num n =>
    cases n with
    | fin q => right; exact ⟨q, rfl⟩
    | nan => left; rfl
    | inf => exact absurd rfl h1
    | ninf => exact absurd rfl h2
  | str s =>
    simp only [parseCoord]
    cases parseFloatQ (numericClean s.data) with
    | none => left; rfl
    | some q => right; exact ⟨q, rfl⟩

/-- Characterization of the coordinate swap on finitely parsed inputs: the
two fields are exchanged exactly when the out-of-range rule or the Vietnam
band rule fires. -/
theorem normalizeLatLng_eq (p : MapPoint) (a b : ℚ)
    (hlat : parseCoord p.lat = .fin a) (hlng : parseCoord p.lng = .fin b) :
    normalizeLatLng p =
      if (90 < |a| ∧ |b| ≤ 90) ∨ ((6 ≤ b ∧ b ≤ 30) ∧ (95 ≤ a ∧ a ≤ 120))
      then (.fin b, .fin a) else (.fin a, .fin b) := by
  unfold normalizeLatLng
  rw [hlat, hlng]
  simp only [JSNum.isNaNB, JSNum.absJ, JSNum.gtJ, JSNum.leJ, looksLikeLat, looksLikeLng,
    JSNum.geJ, Bool.or_self, Bool.false_eq_true, if_false, Bool.and_eq_true,
    decide_eq_true_eq]
  split_ifs with h1 h2 h3 h4 h5 <;> tauto

/-! ### C1 — fenced-block extraction -/

/-- The body "1" parses to the JSON number 1. -/
theorem tryParse_one : tryParse "1".data = some (Json.num 1) := by
  have h : tryParse "1".data =
      some (.num (((digitsToNat ['1'] : ℚ) + (digitsToNat ([] : List Char) : ℚ) /
        (10 : ℚ) ^ (0 : ℕ)) * (10 : ℚ) ^ (0 : ℤ))) := rfl
  have hd : digitsToNat ['1'] = 1 := by decide
  have hd0 : digitsToNat ([] : List Char) = 0 := rfl
  rw [h, hd, hd0]
  norm_num

/-- C1 counterexample: on an input holding two identical fenced blocks
with body 1 (between the markers A, B, C), both bodies parse and the
winner is the *last* block, but `cleanedText` is produced by
`String.replace`, which removes the *first* occurrence of the winning
block's text — so the claimed "input text with the winning block's span
removed" (which keeps the first fenced block and drops the second)
differs from the actual output (which keeps the second fenced block). -/
theorem C1_counterexample :
    (extractStructured "A```1```B```1```C").1 = "AB```1```C" ∧
    (extractStructured "A```1```B```1```C").2 = some (Json.num 1) ∧
    "AB```1```C" ≠ "A```1```BC" := by
  have h2 : (extractStructured "A```1```B```1```C").2 = tryParse "1".data := rfl
  exact ⟨rfl, h2.trans tryParse_one, by decide⟩

/-- C1 (amended): with one or more fenced blocks present, the extractor
tries the blocks from the last-appearing one backward and returns the
parsed value of the first (i.e. last-positioned) block that parses; the
cleaned text is the input with the *first occurrence* of the winning
block's matched text removed, then trimmed (this equals removing the
winning block's own span whenever its text occurs only once). -/
theorem C1_amended_extraction (s : String) (m : FMatch) (j : Json)
    (hfind : (fencedMatches s.data).reverse.find? (fun mm => (tryParse mm.group).isSome) = some m)
    (hparse : tryParse m.group = some j) :
    extractStructured s = (⟨trimL (replaceFirst s.data m.full)⟩, some j) := by
  unfold extractStructured
  simp only [pickFenced_eq, hfind, Option.some_bind, hparse, Option.map_some]
  rfl

/-- C1 witness: a malformed last block is skipped and the earlier valid
block wins, with its text removed from the cleaned output. -/
theorem C1_amended_extraction_witness :
    (fencedMatches "a```1```b```x```c".data).reverse.find?
        (fun mm => (tryParse mm.group).isSome) = some ⟨1, "```1```".data, "1".data⟩ ∧
    tryParse "1".data = some (Json.num 1) ∧
    extractStructured "a```1```b```x```c" = ("ab```x```c", some (Json.num 1)) := by
  refine ⟨rfl, tryParse_one, ?_⟩
  have h3 := C1_amended_extraction "a```1```b```x```c" ⟨1, "```1```".data, "1".data⟩
    (Json.num 1) rfl tryParse_one
  exact h3.trans (by rfl)

/-! ### C2 — numeric coercion examples -/

/-- C2 counterexample: `toNumber "1.234,56"` is `1.23456` (all digits after
comma-stripping are parsed), not the claimed `1.234`. -/
theorem C2_counterexample :
    toNumber (Json.str "1.234,56") = 1.23456 ∧ (1.23456 : ℚ) ≠ (1.234 : ℚ) := by
  constructor
  · simp [toNumber, numericClean, trimL, parseFloatQ, Json.toStr, digitsToNat, isJsWs,
      isDigitC, isNumKeep]
    norm_num
  · norm_num

/-- C2 (amended): `toNumber` maps "10,5" to 10.5, "1.234,56" to 1.23456
(commas stripped under the dot-priority rule, the full remaining digit
string parsed), and "abc" to 0. -/
theorem C2_toNumber_coercion :
    toNumber (Json.str "10,5") = 10.5 ∧ toNumber (Json.str "1.234,56") = 1.23456 ∧
      toNumber (Json.str "abc") = 0 := by
  refine ⟨?_, ?_, rfl⟩ <;>
    · simp [toNumber, numericClean, trimL, parseFloatQ, Json.toStr, digitsToNat, isJsWs,
        isDigitC, isNumKeep]
      norm_num

/-! ### C3 — the boundary cache key -/

/-- C3 counterexample: after a pass stores the (null) resolution result
under the compound key, a second identical pass still invokes the boundary
resolver for the same destination — the cache never prevents
recomputation. -/
theorem C3_counterexample :
    (updateMapView oracleFail [pointHanoi] .all []).outlines = [("outline-1-0-hanoi", none)] ∧
    (updateMapView oracleFail [pointHanoi] .all []).fetched = ["hanoi"] ∧
    (updateMapView oracleFail [pointHanoi] .all
      (updateMapView oracleFail [pointHanoi] .all []).outlines).fetched = ["hanoi"] :=
  ⟨rfl, rfl, rfl⟩

/-- C3 (amended): the boundary-resolution result (including null) is
stored under the compound key `outline-day-index-slug`, and two
destinations with the same name never collide across different days or
indices; however the entry is rewritten and the resolution re-executed on
every pass, not reused. -/
theorem C3_key_no_collision (d1 d2 : ℤ) (i1 i2 : ℕ) (nm : String)
    (hne : d1 ≠ d2 ∨ i1 ≠ i2) :
    srcIdOf (.fin (d1 : ℚ)) i1 nm ≠ srcIdOf (.fin (d2 : ℚ)) i2 nm := by
  intro h
  obtain ⟨hd, hi⟩ := srcIdOf_inj_core d1 d2 i1 i2 nm h
  rcases hne with h1 | h1 <;> exact h1 (by omega)

/-- C3 witness: same name on different days yields different keys. -/
theorem C3_key_no_collision_witness :
    srcIdOf (.fin ((1 : ℤ) : ℚ)) 0 "hanoi" ≠ srcIdOf (.fin ((2 : ℤ) : ℚ)) 0 "hanoi" :=
  C3_key_no_collision 1 2 0 0 "hanoi" (Or.inl (by norm_num))

/-! ### C4 — the coordinate swap heuristic -/

/-- C4: for finitely parsed coordinates, `normalizeLatLng` swaps the two
fields exactly when |lat| > 90 with |lng| ≤ 90, or the coerced longitude
lies in the latitude band [6,30] while the coerced latitude lies in the
longitude band [95,120]. -/
theorem C4_swap_heuristic (p : MapPoint) (a b : ℚ)
    (hlat : parseCoord p.lat = .fin a) (hlng : parseCoord p.lng = .fin b) :
    normalizeLatLng p =
      if (90 < |a| ∧ |b| ≤ 90) ∨ ((6 ≤ b ∧ b ≤ 30) ∧ (95 ≤ a ∧ a ≤ 120))
      then (.fin b, .fin a) else (.fin a, .fin b) :=
  normalizeLatLng_eq p a b hlat hlng

/-- C4 witness: `lat=110, lng=21` is swapped to `(21, 110)`, and an
in-range point is left unchanged. -/
theorem C4_swap_heuristic_witness :
    normalizeLatLng pointSwapped = (.fin 21, .fin 110) ∧
    normalizeLatLng pointHanoi = (.fin 10, .fin 106) := by
  constructor
  · rw [C4_swap_heuristic pointSwapped 110 21 rfl rfl, if_pos]
    left
    constructor <;> rw [abs_of_pos (by norm_num)] <;> norm_num
  · rw [C4_swap_heuristic pointHanoi 10 106 rfl rfl, if_neg]
    rintro (⟨ha, hb⟩ | ⟨⟨hb1, hb2⟩, ha1, ha2⟩)
    · rw [abs_of_pos (by norm_num : (0:ℚ) < 10)] at ha
      norm_num at ha
    · norm_num at hb2

/-! ### C5 — the fallback balanced-bracket scanner -/

/-- C5 counterexample: the scanner collects a candidate for *every*
opening bracket, not only maximal regions — on the four-character
brace-bracket input it reports both the outer region (0,4) and the nested,
non-maximal region (1,3) strictly inside it. -/
theorem C5_counterexample :
    scanCandidates "\x7b[]\x7d".data = [(0, 4), (1, 3)] ∧ 0 < 1 ∧ 3 < 4 :=
  ⟨by decide, by norm_num, by norm_num⟩

/-- C5 (amended): the fallback scanner collects, for each opening bracket,
the balanced region found from it (so nested regions are reported too, not
only maximal ones), treating characters inside a quoted string as literal
where a quote preceded by an odd number of backslashes does not terminate
the string; the payload embedding an escaped quote next to a closing brace
is identified as one balanced region rather than split at the interior
brace. -/
theorem C5_scanner_strings :
    (∀ (cs : List Char) (idx : ℕ), idx ≤ cs.length →
      isEscaped cs idx = decide (trailingBackslashes (cs.take idx) % 2 = 1)) ∧
    scanCandidates "w\x7b\"a\": \"\\\"\x7d\"\x7dz".data = [(1, 13)] :=
  ⟨fun cs idx h => isEscaped_spec cs idx h, by decide⟩

/-- C5 witness: a quote preceded by one backslash is escaped, matching the
declarative odd-run rule. -/
theorem C5_scanner_strings_witness :
    isEscaped "ab\\\"".data 3 = decide (trailingBackslashes ("ab\\\"".data.take 3) % 2 = 1) :=
  C5_scanner_strings.1 "ab\\\"".data 3 (by decide)

/-! ### C6 — normalizer output ranges -/

/-- C6 counterexample: a single-place payload with `lat = 110` produces a
destination whose latitude is 110, outside [-90, 90] — the normalizer
never clamps or validates coordinate ranges. -/
theorem C6_counterexample :
    normalizePoints (Json.obj [("name", .str "x"), ("lat", .num 110), ("lng", .num 21)]) =
      [{ day := .fin 1, name := "x", lat := .num (.fin 110), lng := .num (.fin 21),
         desc := "", source := none, budget := none, geojson := none }] ∧
    ¬ ((110 : ℚ) ≤ 90) :=
  ⟨rfl, by norm_num⟩

/-- C6 (amended): the normalizer enforces no range invariant on lat/lng or
itinerary day numbers; coordinates are the unclamped `toNumber` outputs,
and `day ≥ 1` holds only in the non-itinerary forms, where every produced
destination gets day 1. -/
theorem C6_day_default (j : Json) (pt : MapPoint)
    (hmem : pt ∈ normalizePoints j) (hshape : itinShape j = false) :
    pt.day = .fin 1 := by
  unfold normalizePoints at hmem
  by_cases ht : j.truthy
  · simp only [ht, Bool.not_true, Bool.false_eq_true, if_false] at hmem
    cases j with
    | arr xs =>
      simp only [hshape, Bool.false_eq_true, if_false] at hmem
      obtain ⟨a, ha, hf⟩ := List.mem_filterMap.mp hmem
      by_cases hobj : a.truthy && a.isObjLike
      · rw [if_pos hobj] at hf
        cases hf
        rfl
      · rw [if_neg hobj] at hf
        cases hf
    | obj fs =>
      simp only [List.mem_singleton] at hmem
      subst hmem
      rfl
    | null => simp at hmem
    | bool b => simp at hmem
    | num q => simp at hmem
    | str s => simp at hmem
  · simp only [ht, Bool.not_false, if_true] at hmem
    simp at hmem

/-- C6 witness: a place-list payload produces only day-1 destinations. -/
theorem C6_day_default_witness :
    (itinShape (Json.arr [Json.obj [("name", Json.str "p"), ("lat", Json.num 10),
      ("lng", Json.num 106)]]) = false) ∧
    ∀ pt ∈ normalizePoints (Json.arr [Json.obj [("name", Json.str "p"), ("lat", Json.num 10),
      ("lng", Json.num 106)]]), pt.day = .fin 1 := by
  refine ⟨rfl, ?_⟩
  intro pt hpt
  exact C6_day_default _ pt hpt rfl

/-! ### C7 — the boundary resolver never raises -/

/-- C7: the boundary resolver is total over every oracle behaviour and
each failure mode — network failure, non-OK response, response-body parse
failure, a non-array body, an empty candidate list, or any thrown
exception — degrades to a null result. -/
theorem C7_resolver_degrades (o : Oracle) (p : MapPoint) :
    (o.search p.name = .netError → fetchBoundaryFromNominatim o p = none) ∧
    (∀ b, o.search p.name = .resp false b → fetchBoundaryFromNominatim o p = none) ∧
    (o.search p.name = .resp true none → fetchBoundaryFromNominatim o p = none) ∧
    (o.search p.name = .resp true (some .nonArray) → fetchBoundaryFromNominatim o p = none) ∧
    (o.search p.name = .resp true (some (.arrOf [])) → fetchBoundaryFromNominatim o p = none) ∧
    (∀ e, fetchBoundaryE o p = .error e → fetchBoundaryFromNominatim o p = none) := by
  refine ⟨?_, ?_, ?_, ?_, ?_, ?_⟩
  · intro h
    unfold fetchBoundaryFromNominatim fetchBoundaryE
    rw [h]
  · intro b h
    unfold fetchBoundaryFromNominatim fetchBoundaryE
    rw [h]
    rfl
  · intro h
    unfold fetchBoundaryFromNominatim fetchBoundaryE
    rw [h]
    rfl
  · intro h
    unfold fetchBoundaryFromNominatim fetchBoundaryE
    rw [h]
    rfl
  · intro h
    unfold fetchBoundaryFromNominatim fetchBoundaryE
    rw [h]
    rfl
  · intro e h
    unfold fetchBoundaryFromNominatim
    rw [h]

/-- C7 witness: a failing network yields a null boundary. -/
theorem C7_resolver_degrades_witness :
    fetchBoundaryFromNominatim oracleFail pointHanoi = none :=
  (C7_resolver_degrades oracleFail pointHanoi).1 rfl

/-! ### C8 — viewport fitting after a pass -/

/-- C8 counterexample: with exactly one active destination the pass takes
the combined-bound branch (`fitBounds` of the expanded delta box), not the
claimed direct center-and-zoom branch. -/
theorem C8_counterexample :
    (updateMapView oracleFail [pointHanoi] .all []).action =
      .fitBounds ⟨105.99136, 9.99136, 106.00864, 10.00864⟩ ∧
    (updateMapView oracleFail [pointHanoi] .all []).action ≠
      .flyToPoint (.fin 106) (.fin 10) 16 := by
  have h1 : (updateMapView oracleFail [pointHanoi] .all []).action =
      .fitBounds (expandBBox ⟨106 - 8/1000, 10 - 8/1000, 106 + 8/1000, 10 + 8/1000⟩ (4/100)) := rfl
  constructor
  · rw [h1]
    norm_num [expandBBox]
  · rw [h1]
    intro hcon
    exact ViewAction.noConfusion hcon

/-- C8 (amended): every processed destination contributes to the combined
bound (also along the circle-fallback path), so whenever at least one
destination is active the viewport is always fit to the accumulated
combined bound; the single-destination direct center/zoom branch and the
raw-point-set branch are unreachable, and an empty active set resets the
viewport to the default view. -/
theorem C8_combined_bound_always (o : Oracle) (points : List MapPoint) (sel : SelDay)
    (st0 : List (String × Option Geom)) :
    (activePointsOf points sel ≠ [] →
      ∃ b, (updateMapView o points sel st0).action = .fitBounds b) ∧
    (activePointsOf points sel = [] →
      (updateMapView o points sel st0).action = .flyToDefault) := by
  constructor
  · intro h
    have hs := procList_combined_isSome o (activePointsOf points sel)
      { outlines := st0, combined := none, fetched := [] } 0 h
    obtain ⟨b, hb⟩ := Option.isSome_iff_exists.mp hs
    refine ⟨b, ?_⟩
    unfold updateMapView
    rw [if_neg (by simpa [List.isEmpty_iff] using h)]
    simp only [hb]
  · intro h
    unfold updateMapView
    rw [if_pos (by simpa [List.isEmpty_iff] using h)]

/-- C8 witness: one active destination still ends in `fitBounds`. -/
theorem C8_combined_bound_always_witness :
    activePointsOf [pointHanoi] .all ≠ [] ∧
    ∃ b, (updateMapView oracleFail [pointHanoi] .all []).action = .fitBounds b := by
  have hne : activePointsOf [pointHanoi] SelDay.all ≠ [] := by
    intro h
    have he : activePointsOf [pointHanoi] SelDay.all = [pointHanoi] := rfl
    rw [he] at h
    cases h
  exact ⟨hne, (C8_combined_bound_always oracleFail [pointHanoi] .all []).1 hne⟩

/-! ### C9 — totality and finiteness of normalizeLatLng -/

/-- C9 counterexample: a literal `Infinity` latitude passes the number
branch unchecked, triggers the out-of-range swap against the finite
longitude, and flows into the output — the returned longitude is not
finite. -/
theorem C9_counterexample :
    normalizeLatLng pointInfLat = (.fin 0, .inf) ∧ JSNum.isFiniteB .inf = false :=
  ⟨rfl, rfl⟩

/-- C9 (amended): for every `MapPoint` whose coordinate fields are not a
literal ±Infinity number, both returned fields are finite, and a
coordinate that parses to NaN (missing, non-numeric, unparseable) is
coerced to 0. -/
theorem C9_finite_outputs (p : MapPoint)
    (h1 : p.lat ≠ .num .inf) (h2 : p.lat ≠ .num .ninf)
    (h3 : p.lng ≠ .num .inf) (h4 : p.lng ≠ .num .ninf) :
    (normalizeLatLng p).1.isFiniteB = true ∧ (normalizeLatLng p).2.isFiniteB = true ∧
    (parseCoord p.lat = .nan → (normalizeLatLng p).1 = .fin 0) ∧
    (parseCoord p.lng = .nan → (normalizeLatLng p).2 = .fin 0) := by
  rcases parseCoord_cases p.lat h1 h2 with hla | ⟨qa, hla⟩ <;>
    rcases parseCoord_cases p.lng h3 h4 with hlb | ⟨qb, hlb⟩
  · have hn : normalizeLatLng p = (JSNum.nan.orZero, JSNum.nan.orZero) := by
      unfold normalizeLatLng
      rw [hla, hlb]
      simp [JSNum.isNaNB]
    rw [hn]
    exact ⟨rfl, rfl, fun _ => rfl, fun _ => rfl⟩
  · have hn : normalizeLatLng p = (JSNum.nan.orZero, (JSNum.fin qb).orZero) := by
      unfold normalizeLatLng
      rw [hla, hlb]
      simp [JSNum.isNaNB]
    rw [hn]
    refine ⟨rfl, rfl, fun _ => rfl, fun hc => ?_⟩
    rw [hlb] at hc
    exact JSNum.noConfusion hc
  · have hn : normalizeLatLng p = ((JSNum.fin qa).orZero, JSNum.nan.orZero) := by
      unfold normalizeLatLng
      rw [hla, hlb]
      simp [JSNum.isNaNB]
    rw [hn]
    refine ⟨rfl, rfl, fun hc => ?_, fun _ => rfl⟩
    rw [hla] at hc
    exact JSNum.noConfusion hc
  · have heq := normalizeLatLng_eq p qa qb hla hlb
    rw [heq]
    refine ⟨?_, ?_, fun hc => ?_, fun hc => ?_⟩
    · split_ifs <;> rfl
    · split_ifs <;> rfl
    · rw [hla] at hc
      exact JSNum.noConfusion hc
    · rw [hlb] at hc
      exact JSNum.noConfusion hc

/-- C9 witness: an unparseable latitude string yields finite outputs with
the latitude coerced to 0. -/
theorem C9_finite_outputs_witness :
    (normalizeLatLng pointBadLat).1.isFiniteB = true ∧
    (normalizeLatLng pointBadLat).2.isFiniteB = true ∧
    (normalizeLatLng pointBadLat).1 = .fin 0 := by
  have h := C9_finite_outputs pointBadLat (by simp [pointBadLat, pointHanoi])
    (by simp [pointBadLat, pointHanoi]) (by simp [pointBadLat, pointHanoi])
    (by simp [pointBadLat, pointHanoi])
  exact ⟨h.1, h.2.1, h.2.2.1 rfl⟩

/-! ### C10 — the circle polygon -/

/-- A list with its own first element re-appended is one longer, nonempty,
and starts and ends with the same element. -/
theorem ring_closed {α : Type} (l : List α) (h : l ≠ []) :
    (l ++ l.take 1).length = l.length + 1 ∧
    (l ++ l.take 1).head? = (l ++ l.take 1).getLast? ∧
    (l ++ l.take 1).head?.isSome := by
  obtain ⟨c, cs, rfl⟩ := List.exists_cons_of_ne_nil h
  refine ⟨by simp, ?_, by simp⟩
  rw [List.take_succ_cons, List.take_zero, List.getLast?_concat]
  simp

/-- C10: for every center, radius, trigonometric interpretation and
positive step count, `makeCircle` returns a Polygon feature with exactly
one ring of `steps + 1` positions whose first position equals its last —
a closed linear ring. -/
theorem C10_makeCircle_ring (cosF sinF : ℚ → ℚ) (piQ lng lat radius : ℚ) (steps : ℕ)
    (h : 0 < steps) :
    ∃ ring, (makeCircle cosF sinF piQ lng lat radius steps).geometry = .polygon [ring] ∧
      ring.length = steps + 1 ∧ ring.head? = ring.getLast? ∧ ring.head?.isSome := by
  have hlen : (circleCoords cosF sinF piQ lng lat radius steps).length = steps := by
    unfold circleCoords
    rw [List.length_map, List.length_range]
  have hne : circleCoords cosF sinF piQ lng lat radius steps ≠ [] := by
    intro he
    rw [he] at hlen
    simp at hlen
    omega
  obtain ⟨h1, h2, h3⟩ := ring_closed (circleCoords cosF sinF piQ lng lat radius steps) hne
  exact ⟨_, rfl, by rw [h1, hlen], h2, h3⟩

/-- C10 witness: a concrete 4-step circle has a 5-position closed ring. -/
theorem C10_makeCircle_ring_witness :
    (0 < 4) ∧ ∃ ring,
      (makeCircle (fun q => q) (fun q => q) 3 0 0 1 4).geometry = .polygon [ring] ∧
      ring.length = 4 + 1 ∧ ring.head? = ring.getLast? ∧ ring.head?.isSome :=
  ⟨by norm_num, C10_makeCircle_ring (fun q => q) (fun q => q) 3 0 0 1 4 (by norm_num)⟩

end VJB
